import Mathlib

/-!
# Verification of the ERC-4626 deposit planner

Shallow embedding of `src/erc4626-deposit/index.ts`.  The TypeScript
function `deposit(client, { wallet, vault, amount, walletClient })`
validates its inputs, performs a fixed sequence of remote reads against a
`PublicClient`, builds a transaction descriptor with a 10%-inflated gas
limit, and either returns the descriptor or (when a `walletClient` is
supplied) submits it and waits for the receipt.

The remote world is modelled as record-of-functions environments
(`PublicClient`, `WalletClient`).  `deposit` is embedded as a pure
function producing an `Except` result together with the list of remote
calls issued, in the order the source awaits them; this makes claims
about "no remote call made" and "send invoked at most once" statable.

Addresses are natural numbers with `0` standing for the zero address;
on-chain unsigned 256-bit quantities (balances, allowances, gas) are
naturals; the request `amount` is a `bigint` in the source and may be
negative, so it is an integer.
-/

namespace ERC4626

/-- Addresses (`0x...` strings in the source); `0` is the zero address. -/
abbrev Addr := Nat

/-- The chain's zero address, `0x0000000000000000000000000000000000000000`. -/
def zeroAddress : Addr := 0

/-- Transaction hashes, opaque values produced by the wallet client. -/
abbrev Hash := Nat

/-- Result of `encodeFunctionData({ abi, functionName, args })` for the
single call shape the source encodes: `deposit(amount, receiver)`.
`encodeFunctionData` is deterministic, so its result is modelled
structurally by the function name and the decoded arguments. -/
structure CallData where
  functionName : String
  amountArg : Int
  receiverArg : Addr
deriving DecidableEq, Repr

/-- `encodeFunctionData({ abi: erc4626Abi, functionName: "deposit",
args: [amount, wallet] })` from the source. -/
def encodeFunctionDataDeposit (amount : Int) (receiver : Addr) : CallData :=
  { functionName := "deposit", amountArg := amount, receiverArg := receiver }

/-- The `Transaction` type of the source (the unsigned descriptor). -/
structure Transaction where
  data : CallData
  «from» : Addr
  «to» : Addr
  value : Int
  gas : Nat
deriving DecidableEq, Repr

/-- Receipt status: viem's `"success" | "reverted"`. -/
inductive TxStatus where
  | success
  | reverted
deriving DecidableEq, Repr

/-- The transaction receipt returned by `waitForTransactionReceipt`
(only the fields the spec talks about). -/
structure Receipt where
  status : TxStatus
  «from» : Addr
  «to» : Addr
deriving DecidableEq, Repr

/-- The `DepositResult` type of the source. -/
structure DepositResult where
  hash : Hash
  receipt : Receipt
deriving DecidableEq, Repr

/-- The read-only remote surface used by `deposit`: the viem
`PublicClient` together with the two contract handles built on it.
Each field is one awaited remote operation of the source. -/
structure PublicClient where
  /-- `vaultContract.read.asset()`: vault address ↦ underlying asset. -/
  asset : Addr → Addr
  /-- `assetContract.read.balanceOf([wallet])`: asset, holder ↦ balance. -/
  balanceOf : Addr → Addr → Nat
  /-- `assetContract.read.allowance([wallet, vault])`:
  asset, owner, spender ↦ allowance. -/
  allowance : Addr → Addr → Addr → Nat
  /-- `vaultContract.read.maxDeposit([wallet])`: vault, receiver ↦ cap. -/
  maxDeposit : Addr → Addr → Nat
  /-- `client.estimateGas({ account, to, data })`. -/
  estimateGas : Addr → Addr → CallData → Nat
  /-- `client.waitForTransactionReceipt({ hash })`. -/
  waitForTransactionReceipt : Hash → Receipt

/-- The optional write surface: viem's `WalletClient`.
`sendTransaction` takes the descriptor and the `account` field. -/
structure WalletClient where
  sendTransaction : Transaction → Addr → Hash

/-- The `DepositParams` type of the source. -/
structure DepositParams where
  wallet : Addr
  vault : Addr
  amount : Int
  walletClient : Option WalletClient

/-- The five domain error classes thrown by the source. -/
inductive DepositError where
  | notEnoughBalance
  | missingAllowance
  | amountExceedsMaxDeposit
  | invalidAmount
  | invalidReceiver
deriving DecidableEq, Repr

/-- The source's return type `Transaction | DepositResult`. -/
inductive DepositOutcome where
  | tx (t : Transaction)
  | executed (r : DepositResult)
deriving DecidableEq, Repr

/-- One awaited remote operation, recorded in the order the source
issues them. -/
inductive RemoteCall where
  | readAsset (vault : Addr)
  | readBalanceOf (asset account : Addr)
  | readAllowance (asset owner spender : Addr)
  | readMaxDeposit (vault account : Addr)
  | estimateGasCall (account «to» : Addr) (data : CallData)
  | sendTransaction (tx : Transaction) (account : Addr)
  | waitForReceipt (hash : Hash)
deriving DecidableEq, Repr

/-- The `depositTx` descriptor the source assembles after all checks
pass: `to`/`from` from the request, the encoded `deposit(amount, wallet)`
call, zero value, and the gas estimate inflated by
`gasEstimate + gasEstimate * 10 / 100` (floor division on naturals,
matching `bigint` division of non-negative values). -/
def depositTxOf (client : PublicClient) (p : DepositParams) : Transaction :=
  let gasEstimate :=
    client.estimateGas p.wallet p.vault (encodeFunctionDataDeposit p.amount p.wallet)
  { «to» := p.vault
    «from» := p.wallet
    data := encodeFunctionDataDeposit p.amount p.wallet
    value := 0
    gas := gasEstimate + gasEstimate * 10 / 100 }

/-- The remote reads performed on the all-checks-pass path, in source
order: asset lookup, balance, allowance, maxDeposit, gas estimation. -/
def successReads (client : PublicClient) (p : DepositParams) : List RemoteCall :=
  [RemoteCall.readAsset p.vault,
   RemoteCall.readBalanceOf (client.asset p.vault) p.wallet,
   RemoteCall.readAllowance (client.asset p.vault) p.wallet p.vault,
   RemoteCall.readMaxDeposit p.vault p.wallet,
   RemoteCall.estimateGasCall p.wallet p.vault
     (encodeFunctionDataDeposit p.amount p.wallet)]

/-- Embedding of the source's `deposit`.  Returns the result (thrown
error or returned value) together with the list of remote calls issued
before termination, in program order. -/
def deposit (client : PublicClient) (p : DepositParams) :
    Except DepositError DepositOutcome × List RemoteCall :=
  if p.amount ≤ 0 then
    (Except.error DepositError.invalidAmount, [])
  else if p.wallet = zeroAddress then
    (Except.error DepositError.invalidReceiver, [])
  else if p.vault = zeroAddress then
    (Except.error DepositError.invalidReceiver, [])
  else
    let asset := client.asset p.vault
    let balance := client.balanceOf asset p.wallet
    if (balance : Int) < p.amount then
      (Except.error DepositError.notEnoughBalance,
       [RemoteCall.readAsset p.vault,
        RemoteCall.readBalanceOf asset p.wallet])
    else
      let allowance := client.allowance asset p.wallet p.vault
      if (allowance : Int) < p.amount then
        (Except.error DepositError.missingAllowance,
         [RemoteCall.readAsset p.vault,
          RemoteCall.readBalanceOf asset p.wallet,
          RemoteCall.readAllowance asset p.wallet p.vault])
      else
        let maxDeposit := client.maxDeposit p.vault p.wallet
        if (maxDeposit : Int) < p.amount then
          (Except.error DepositError.amountExceedsMaxDeposit,
           [RemoteCall.readAsset p.vault,
            RemoteCall.readBalanceOf asset p.wallet,
            RemoteCall.readAllowance asset p.wallet p.vault,
            RemoteCall.readMaxDeposit p.vault p.wallet])
        else
          let depositTx := depositTxOf client p
          match p.walletClient with
          | some wc =>
            let hash := wc.sendTransaction depositTx p.wallet
            let receipt := client.waitForTransactionReceipt hash
            (Except.ok (DepositOutcome.executed ⟨hash, receipt⟩),
             successReads client p ++
               [RemoteCall.sendTransaction depositTx p.wallet,
                RemoteCall.waitForReceipt hash])
          | none =>
            (Except.ok (DepositOutcome.tx depositTx), successReads client p)

end ERC4626

namespace ERC4626

/-- All local and remote validation checks of `deposit` succeed for this
client state and request. -/
def checksPass (client : PublicClient) (p : DepositParams) : Prop :=
  0 < p.amount ∧ p.wallet ≠ zeroAddress ∧ p.vault ≠ zeroAddress ∧
  p.amount ≤ (client.balanceOf (client.asset p.vault) p.wallet : Int) ∧
  p.amount ≤ (client.allowance (client.asset p.vault) p.wallet p.vault : Int) ∧
  p.amount ≤ (client.maxDeposit p.vault p.wallet : Int)

instance (client : PublicClient) (p : DepositParams) :
    Decidable (checksPass client p) := by
  unfold checksPass
  infer_instance

/-- When every check passes, `deposit` reaches the descriptor-assembly
branch: it returns the descriptor (no wallet client) or submits it and
returns hash and receipt (wallet client present). -/
theorem deposit_of_checksPass (client : PublicClient) (p : DepositParams)
    (h : checksPass client p) :
    deposit client p =
      match p.walletClient with
      | some wc =>
        (Except.ok (DepositOutcome.executed
            ⟨wc.sendTransaction (depositTxOf client p) p.wallet,
             client.waitForTransactionReceipt
               (wc.sendTransaction (depositTxOf client p) p.wallet)⟩),
         successReads client p ++
           [RemoteCall.sendTransaction (depositTxOf client p) p.wallet,
            RemoteCall.waitForReceipt
              (wc.sendTransaction (depositTxOf client p) p.wallet)])
      | none =>
        (Except.ok (DepositOutcome.tx (depositTxOf client p)),
         successReads client p) := by
  obtain ⟨h1, h2, h3, h4, h5, h6⟩ := h
  simp only [deposit]
  rw [if_neg (not_le.mpr h1), if_neg h2, if_neg h3, if_neg (not_lt.mpr h4),
    if_neg (not_lt.mpr h5), if_neg (not_lt.mpr h6)]

end ERC4626

namespace ERC4626

/-! ## Concrete fixtures used by the witness theorems -/

/-- A client state in which every remote check succeeds for small
amounts: balance, allowance and capacity are all 100, the base gas
estimate is 21000, and receipts report success echoing wallet 1 and
vault 2. -/
def okClient : PublicClient :=
  { asset := fun _ => 7
    balanceOf := fun _ _ => 100
    allowance := fun _ _ _ => 100
    maxDeposit := fun _ _ => 100
    estimateGas := fun _ _ _ => 21000
    waitForTransactionReceipt := fun _ => ⟨TxStatus.success, 1, 2⟩ }

/-- Like `okClient` but the depositor's asset balance is only 3. -/
def lowBalanceClient : PublicClient :=
  { okClient with balanceOf := fun _ _ => 3 }

/-- Like `okClient` but the allowance granted to the vault is only 3. -/
def lowAllowanceClient : PublicClient :=
  { okClient with allowance := fun _ _ _ => 3 }

/-- Like `okClient` but the vault's maxDeposit for the depositor is 3. -/
def lowCapacityClient : PublicClient :=
  { okClient with maxDeposit := fun _ _ => 3 }

/-- A wallet client whose `sendTransaction` always yields hash 99. -/
def fixedWalletClient : WalletClient := ⟨fun _ _ => 99⟩

/-- Quote-mode request: wallet 1, vault 2, amount 5, no wallet client. -/
def pQuote : DepositParams := ⟨1, 2, 5, none⟩

/-- Execute-mode request: wallet 1, vault 2, amount 5, wallet client. -/
def pExec : DepositParams := ⟨1, 2, 5, some fixedWalletClient⟩

/-- Request with amount 0. -/
def pZeroAmount : DepositParams := ⟨1, 2, 0, none⟩

/-- Request with a negative amount. -/
def pNegAmount : DepositParams := ⟨1, 2, -4, none⟩

/-- Request whose depositor is the zero address. -/
def pZeroWallet : DepositParams := ⟨0, 2, 5, none⟩

/-- Request whose vault is the zero address. -/
def pZeroVault : DepositParams := ⟨1, 0, 5, none⟩

/-! ## Claims -/

/-- **C1.** The remote-state checks run in the fixed order balance, then
allowance, then capacity, each failing fast with its own error.  For any
request passing the local amount and address checks: if the depositor's
balance of the underlying asset is below `amount` the call fails with
`NotEnoughBalanceError` (for every client, hence regardless of allowance
or capacity); if balance suffices but the allowance granted to the vault
is below `amount` it fails with `MissingAllowanceError`; if balance and
allowance suffice but `maxDeposit` is below `amount` it fails with
`AmountExceedsMaxDepositError`. -/
theorem remote_checks_ordered_balance_allowance_capacity
    (client : PublicClient) (p : DepositParams)
    (h1 : 0 < p.amount) (h2 : p.wallet ≠ zeroAddress)
    (h3 : p.vault ≠ zeroAddress) :
    ((client.balanceOf (client.asset p.vault) p.wallet : Int) < p.amount →
      (deposit client p).1 = Except.error DepositError.notEnoughBalance) ∧
    (p.amount ≤ (client.balanceOf (client.asset p.vault) p.wallet : Int) →
      (client.allowance (client.asset p.vault) p.wallet p.vault : Int) < p.amount →
      (deposit client p).1 = Except.error DepositError.missingAllowance) ∧
    (p.amount ≤ (client.balanceOf (client.asset p.vault) p.wallet : Int) →
      p.amount ≤ (client.allowance (client.asset p.vault) p.wallet p.vault : Int) →
      (client.maxDeposit p.vault p.wallet : Int) < p.amount →
      (deposit client p).1 = Except.error DepositError.amountExceedsMaxDeposit) := by
  refine ⟨fun hb => ?_, fun hb ha => ?_, fun hb ha hm => ?_⟩ <;>
    simp only [deposit] <;>
    rw [if_neg (not_le.mpr h1), if_neg h2, if_neg h3]
  · rw [if_pos hb]
  · rw [if_neg (not_lt.mpr hb), if_pos ha]
  · rw [if_neg (not_lt.mpr hb), if_neg (not_lt.mpr ha), if_pos hm]

/-- Witness for C1 at wallet 1, vault 2, amount 5, against clients whose
balance, allowance, or capacity respectively is only 3. -/
theorem remote_checks_ordered_witness :
    (deposit lowBalanceClient pQuote).1 =
        Except.error DepositError.notEnoughBalance ∧
    (deposit lowAllowanceClient pQuote).1 =
        Except.error DepositError.missingAllowance ∧
    (deposit lowCapacityClient pQuote).1 =
        Except.error DepositError.amountExceedsMaxDeposit :=
  ⟨(remote_checks_ordered_balance_allowance_capacity lowBalanceClient pQuote
      (by decide) (by decide) (by decide)).1 (by decide),
   (remote_checks_ordered_balance_allowance_capacity lowAllowanceClient pQuote
      (by decide) (by decide) (by decide)).2.1 (by decide) (by decide),
   (remote_checks_ordered_balance_allowance_capacity lowCapacityClient pQuote
      (by decide) (by decide) (by decide)).2.2 (by decide) (by decide) (by decide)⟩

/-- **C2.** For every request whose amount is ≤ 0, `deposit` fails with
`InvalidAmountError` and the list of remote calls issued is empty: no
ledger read, gas estimation, or submission happens. -/
theorem invalid_amount_fails_before_any_remote_call
    (client : PublicClient) (p : DepositParams) (h : p.amount ≤ 0) :
    deposit client p = (Except.error DepositError.invalidAmount, []) := by
  simp only [deposit]
  rw [if_pos h]

/-- Witness for C2 at amount 0 and amount -4. -/
theorem invalid_amount_witness :
    deposit okClient pZeroAmount =
        (Except.error DepositError.invalidAmount, []) ∧
    deposit okClient pNegAmount =
        (Except.error DepositError.invalidAmount, []) :=
  ⟨invalid_amount_fails_before_any_remote_call okClient pZeroAmount (by decide),
   invalid_amount_fails_before_any_remote_call okClient pNegAmount (by decide)⟩

/-- **C3.** For every request with a strictly positive amount in which
the depositor address or the vault address (or both) is the zero
address, `deposit` fails with `InvalidReceiverError` — the same single
error kind whichever address is invalid. -/
theorem zero_address_fails_invalid_receiver
    (client : PublicClient) (p : DepositParams) (h0 : 0 < p.amount)
    (h : p.wallet = zeroAddress ∨ p.vault = zeroAddress) :
    (deposit client p).1 = Except.error DepositError.invalidReceiver := by
  simp only [deposit]
  rw [if_neg (not_le.mpr h0)]
  by_cases hw : p.wallet = zeroAddress
  · rw [if_pos hw]
  · rcases h with h | h
    · exact absurd h hw
    · rw [if_neg hw, if_pos h]

/-- Witness for C3: zero depositor and zero vault each yield
`InvalidReceiverError` at amount 5. -/
theorem zero_address_witness :
    (deposit okClient pZeroWallet).1 =
        Except.error DepositError.invalidReceiver ∧
    (deposit okClient pZeroVault).1 =
        Except.error DepositError.invalidReceiver :=
  ⟨zero_address_fails_invalid_receiver okClient pZeroWallet (by decide)
      (Or.inl (by decide)),
   zero_address_fails_invalid_receiver okClient pZeroVault (by decide)
      (Or.inr (by decide))⟩

end ERC4626

namespace ERC4626

/-- **C4.** On every successful run the gas limit placed in the
transaction descriptor — the one returned in quote mode or the one
handed to `sendTransaction` — equals
`baseEstimate + baseEstimate * 10 / 100` in exact natural-number
arithmetic with floor division, where `baseEstimate` is the value the
gas-estimation call returned. -/
theorem gas_limit_is_estimate_plus_ten_percent_floor
    (client : PublicClient) (p : DepositParams) (h : checksPass client p) :
    ∀ t : Transaction,
      (deposit client p).1 = Except.ok (DepositOutcome.tx t) ∨
        RemoteCall.sendTransaction t p.wallet ∈ (deposit client p).2 →
      t.gas =
        client.estimateGas p.wallet p.vault
            (encodeFunctionDataDeposit p.amount p.wallet) +
          client.estimateGas p.wallet p.vault
            (encodeFunctionDataDeposit p.amount p.wallet) * 10 / 100 := by
  intro t ht
  have hgas : t = depositTxOf client p := by
    rw [deposit_of_checksPass client p h] at ht
    cases hw : p.walletClient with
    | some wc =>
      rw [hw] at ht
      rcases ht with ht | ht
      · exact absurd ht (by simp)
      · simp only [successReads, List.mem_append, List.mem_cons,
          List.not_mem_nil, or_false] at ht
        rcases ht with ht | ht | ht | ht | ht | ht | ht <;> simp_all
    | none =>
      rw [hw] at ht
      rcases ht with ht | ht
      · simpa using ht.symm
      · exact absurd ht (by simp [successReads])
  subst hgas
  rfl

/-- Witness for C4: at the concrete fixture the returned descriptor's
gas is 21000 + 21000 * 10 / 100 = 23100. -/
theorem gas_limit_witness : (depositTxOf okClient pQuote).gas = 23100 := by
  have h := gas_limit_is_estimate_plus_ten_percent_floor okClient pQuote
    (by decide) (depositTxOf okClient pQuote) (Or.inl rfl)
  rw [h]
  decide

/-- **C5.** For every request that passes all checks and has no wallet
client, the returned descriptor has `value = 0`, `to` the vault address,
`from` the depositor address, and `data` the encoded
`deposit(amount, wallet)` call. -/
theorem quote_descriptor_fields
    (client : PublicClient) (p : DepositParams)
    (h : checksPass client p) (hw : p.walletClient = none) :
    ∃ t : Transaction,
      (deposit client p).1 = Except.ok (DepositOutcome.tx t) ∧
      t.value = 0 ∧ t.«to» = p.vault ∧ t.«from» = p.wallet ∧
      t.data = encodeFunctionDataDeposit p.amount p.wallet := by
  refine ⟨depositTxOf client p, ?_, rfl, rfl, rfl, rfl⟩
  rw [deposit_of_checksPass client p h, hw]

/-- Witness for C5 at the concrete quote-mode fixture. -/
theorem quote_descriptor_witness :
    ∃ t : Transaction,
      (deposit okClient pQuote).1 = Except.ok (DepositOutcome.tx t) ∧
      t.value = 0 ∧ t.«to» = 2 ∧ t.«from» = 1 ∧
      t.data = encodeFunctionDataDeposit 5 1 :=
  quote_descriptor_fields okClient pQuote (by decide) rfl

end ERC4626

namespace ERC4626

/-- If any validation check fails, `deposit` terminates with some
domain error and its trace contains no `sendTransaction` call. -/
theorem deposit_not_checksPass_shape (client : PublicClient) (p : DepositParams)
    (h : ¬ checksPass client p) :
    (∃ e, (deposit client p).1 = Except.error e) ∧
    (∀ tx a, RemoteCall.sendTransaction tx a ∉ (deposit client p).2) := by
  by_cases h1 : p.amount ≤ 0
  · have hd : deposit client p = (Except.error DepositError.invalidAmount, []) := by
      simp only [deposit]; rw [if_pos h1]
    rw [hd]; exact ⟨⟨_, rfl⟩, by simp⟩
  by_cases h2 : p.wallet = zeroAddress
  · have hd : deposit client p = (Except.error DepositError.invalidReceiver, []) := by
      simp only [deposit]; rw [if_neg h1, if_pos h2]
    rw [hd]; exact ⟨⟨_, rfl⟩, by simp⟩
  by_cases h3 : p.vault = zeroAddress
  · have hd : deposit client p = (Except.error DepositError.invalidReceiver, []) := by
      simp only [deposit]; rw [if_neg h1, if_neg h2, if_pos h3]
    rw [hd]; exact ⟨⟨_, rfl⟩, by simp⟩
  by_cases h4 : (client.balanceOf (client.asset p.vault) p.wallet : Int) < p.amount
  · have hd : deposit client p = (Except.error DepositError.notEnoughBalance,
        [RemoteCall.readAsset p.vault,
         RemoteCall.readBalanceOf (client.asset p.vault) p.wallet]) := by
      simp only [deposit]; rw [if_neg h1, if_neg h2, if_neg h3, if_pos h4]
    rw [hd]; exact ⟨⟨_, rfl⟩, by simp⟩
  by_cases h5 : (client.allowance (client.asset p.vault) p.wallet p.vault : Int) < p.amount
  · have hd : deposit client p = (Except.error DepositError.missingAllowance,
        [RemoteCall.readAsset p.vault,
         RemoteCall.readBalanceOf (client.asset p.vault) p.wallet,
         RemoteCall.readAllowance (client.asset p.vault) p.wallet p.vault]) := by
      simp only [deposit]; rw [if_neg h1, if_neg h2, if_neg h3, if_neg h4, if_pos h5]
    rw [hd]; exact ⟨⟨_, rfl⟩, by simp⟩
  by_cases h6 : (client.maxDeposit p.vault p.wallet : Int) < p.amount
  · have hd : deposit client p = (Except.error DepositError.amountExceedsMaxDeposit,
        [RemoteCall.readAsset p.vault,
         RemoteCall.readBalanceOf (client.asset p.vault) p.wallet,
         RemoteCall.readAllowance (client.asset p.vault) p.wallet p.vault,
         RemoteCall.readMaxDeposit p.vault p.wallet]) := by
      simp only [deposit]; rw [if_neg h1, if_neg h2, if_neg h3, if_neg h4, if_neg h5, if_pos h6]
    rw [hd]; exact ⟨⟨_, rfl⟩, by simp⟩
  · exact absurd ⟨by omega, h2, h3, by omega, by omega, by omega⟩ h

/-- **C6.** The result shape is decided solely by the presence of a
wallet client: `deposit` either fails with a typed error, or returns the
unsent descriptor iff no wallet client was supplied, and an execution
result (hash plus receipt) iff one was. -/
theorem result_shape_determined_by_submitter
    (client : PublicClient) (p : DepositParams) :
    (∃ e, (deposit client p).1 = Except.error e) ∨
    (∃ o, (deposit client p).1 = Except.ok o ∧
      ((∃ t, o = DepositOutcome.tx t) ↔ p.walletClient = none) ∧
      ((∃ r, o = DepositOutcome.executed r) ↔ p.walletClient ≠ none)) := by
  by_cases hcp : checksPass client p
  · right
    rw [deposit_of_checksPass client p hcp]
    cases hw : p.walletClient with
    | some wc => exact ⟨_, rfl, by simp, by simp⟩
    | none => exact ⟨_, rfl, by simp, by simp⟩
  · exact Or.inl (deposit_not_checksPass_shape client p hcp).1

/-- Witness for C6 at the concrete quote-mode fixture. -/
theorem result_shape_witness :
    (∃ e, (deposit okClient pQuote).1 = Except.error e) ∨
    (∃ o, (deposit okClient pQuote).1 = Except.ok o ∧
      ((∃ t, o = DepositOutcome.tx t) ↔ pQuote.walletClient = none) ∧
      ((∃ r, o = DepositOutcome.executed r) ↔ pQuote.walletClient ≠ none)) :=
  result_shape_determined_by_submitter okClient pQuote

/-- **C7.** For every request that passes all checks and supplies a
wallet client, if the ledger's receipt for the submitted hash reports
success and echoes the descriptor's `from`/`to` (the Transaction
Submitter interface contract), then the returned execution result
contains that hash and a receipt whose status is success, whose `from`
is the depositor and whose `to` is the vault. -/
theorem execution_result_fields
    (client : PublicClient) (p : DepositParams) (wc : WalletClient)
    (h : checksPass client p) (hw : p.walletClient = some wc)
    (hstatus : (client.waitForTransactionReceipt
        (wc.sendTransaction (depositTxOf client p) p.wallet)).status =
      TxStatus.success)
    (hfrom : (client.waitForTransactionReceipt
        (wc.sendTransaction (depositTxOf client p) p.wallet)).«from» =
      (depositTxOf client p).«from»)
    (hto : (client.waitForTransactionReceipt
        (wc.sendTransaction (depositTxOf client p) p.wallet)).«to» =
      (depositTxOf client p).«to») :
    ∃ r : DepositResult,
      (deposit client p).1 = Except.ok (DepositOutcome.executed r) ∧
      r.hash = wc.sendTransaction (depositTxOf client p) p.wallet ∧
      r.receipt.status = TxStatus.success ∧
      r.receipt.«from» = p.wallet ∧ r.receipt.«to» = p.vault := by
  refine ⟨⟨wc.sendTransaction (depositTxOf client p) p.wallet,
    client.waitForTransactionReceipt
      (wc.sendTransaction (depositTxOf client p) p.wallet)⟩,
    ?_, rfl, hstatus, ?_, ?_⟩
  · rw [deposit_of_checksPass client p h, hw]
  · simpa [depositTxOf] using hfrom
  · simpa [depositTxOf] using hto

/-- Witness for C7 at the concrete execute-mode fixture. -/
theorem execution_result_witness :
    ∃ r : DepositResult,
      (deposit okClient pExec).1 = Except.ok (DepositOutcome.executed r) ∧
      r.hash = fixedWalletClient.sendTransaction (depositTxOf okClient pExec) 1 ∧
      r.receipt.status = TxStatus.success ∧
      r.receipt.«from» = 1 ∧ r.receipt.«to» = 2 :=
  execution_result_fields okClient pExec fixedWalletClient (by decide) rfl
    (by decide) (by decide) (by decide)

end ERC4626

namespace ERC4626

/-- **C8.** Failure is atomic with respect to the write path: whenever
`deposit` terminates with a domain error, no `sendTransaction` call
appears in its remote-call trace — the submitter's send operation is
never invoked on any failing run. -/
theorem failure_never_invokes_send
    (client : PublicClient) (p : DepositParams) (e : DepositError)
    (h : (deposit client p).1 = Except.error e) :
    ∀ tx a, RemoteCall.sendTransaction tx a ∉ (deposit client p).2 := by
  intro tx a hmem
  by_cases hcp : checksPass client p
  · rw [deposit_of_checksPass client p hcp] at h hmem
    cases hw : p.walletClient with
    | some wc =>
      rw [hw] at h
      simp at h
    | none =>
      rw [hw] at hmem
      simp [successReads] at hmem
  · exact (deposit_not_checksPass_shape client p hcp).2 tx a hmem

/-- Witness for C8: the insufficient-balance failure at the concrete
fixture issues no send of the would-be descriptor. -/
theorem failure_never_invokes_send_witness :
    RemoteCall.sendTransaction (depositTxOf okClient pQuote) 1 ∉
      (deposit lowBalanceClient pQuote).2 :=
  failure_never_invokes_send lowBalanceClient pQuote
    DepositError.notEnoughBalance rfl (depositTxOf okClient pQuote) 1

/-- `RemoteCall` classifier: is this call a `sendTransaction`? -/
def isSend : RemoteCall → Bool
  | RemoteCall.sendTransaction _ _ => true
  | _ => false

/-- **C9.** Within any single `deposit` invocation the submitter's send
operation is invoked at most once: whatever the arguments, client state
and outcome, the remote-call trace contains at most one
`sendTransaction` call — no resubmission, retry, or gas bump. -/
theorem send_invoked_at_most_once (client : PublicClient) (p : DepositParams) :
    (deposit client p).2.countP (fun c => isSend c) ≤ 1 := by
  simp only [deposit]
  repeat' split
  all_goals
    simp [successReads, isSend, List.countP_cons, List.countP_append,
      List.countP_nil]

/-- Witness for C9: the execute-mode fixture sends exactly once. -/
theorem send_invoked_at_most_once_witness :
    (deposit okClient pExec).2.countP (fun c => isSend c) ≤ 1 :=
  send_invoked_at_most_once okClient pExec

/-- **C10.** The call data passed to the gas-estimation simulation is
identical to the `data` field of the descriptor that is returned or
submitted: on every successful run the trace contains a gas-estimation
call whose data equals the descriptor's data (both are
`encodeFunctionDataDeposit amount wallet`, computed from the same
arguments). -/
theorem simulated_call_data_equals_descriptor_data
    (client : PublicClient) (p : DepositParams) (h : checksPass client p) :
    (∀ t, (deposit client p).1 = Except.ok (DepositOutcome.tx t) →
      RemoteCall.estimateGasCall p.wallet p.vault t.data ∈ (deposit client p).2) ∧
    (∀ tx a, RemoteCall.sendTransaction tx a ∈ (deposit client p).2 →
      RemoteCall.estimateGasCall p.wallet p.vault tx.data ∈ (deposit client p).2) := by
  rw [deposit_of_checksPass client p h]
  cases hw : p.walletClient with
  | some wc =>
    constructor
    · intro t ht
      exact absurd ht (by simp)
    · intro tx a hmem
      have htx : tx = depositTxOf client p := by
        simp only [successReads, List.mem_append, List.mem_cons,
          List.not_mem_nil, or_false] at hmem
        rcases hmem with hm | hm | hm | hm | hm | hm | hm <;> simp_all
      subst htx
      simp [successReads, depositTxOf]
  | none =>
    constructor
    · intro t ht
      have htx : t = depositTxOf client p := by simpa using ht.symm
      subst htx
      simp [successReads, depositTxOf]
    · intro tx a hmem
      exact absurd hmem (by simp [successReads])

/-- Witness for C10: at the quote-mode fixture the returned
descriptor's data was exactly the data simulated for gas. -/
theorem simulated_call_data_witness :
    RemoteCall.estimateGasCall 1 2 (depositTxOf okClient pQuote).data ∈
      (deposit okClient pQuote).2 :=
  (simulated_call_data_equals_descriptor_data okClient pQuote (by decide)).1
    (depositTxOf okClient pQuote) rfl

end ERC4626
